import Mathlib

/-!
Verification of the carousel subsystem of the WeOtzi/tools repository
(src/src/app/components/TattooCarousel.tsx), shallowly embedded in Lean.

The embedding covers:
* the circular slot map `getSlot`;
* index mutation (arrow keys, pagination clicks, momentum snaps), where
  JavaScript `%` on integers is embedded as `Int.tmod`;
* the pointer-drag state machine of `useDragCarousel`
  (pointer-down / pointer-move / pointer-up, the 5px deadzone, the
  velocity estimate, the slow-release snap);
* the momentum `tick` loop of `startMomentum`, with fuel standing for the
  frame scheduler; JavaScript floating-point numbers are embedded as `ℚ`
  and `Math.round` as `jsRound`;
* the theme-transition overlay timers (`setTimeout` at 350ms / 1600ms with
  `clearTimeout` on teardown, and the `hasFlipped` ref guard);
* the `N = 0` fallback of the main component together with the background
  layer's item lookup, embedded as a fallible `Option` access.
-/

/-- Circular slot of item `i` relative to active index `active` among `N`
items. Mirrors `getSlot` (TattooCarousel.tsx lines 123-128):
`let d = i - active; if (d > N / 2) d -= N; if (d < -N / 2) d += N; return d;`
JavaScript `N / 2` is real division, embedded as division in `ℚ`. -/
def getSlot (i active N : ℤ) : ℤ :=
  let d : ℤ := i - active
  let d1 : ℤ := if (N : ℚ) / 2 < (d : ℚ) then d - N else d
  if (d1 : ℚ) < -(N : ℚ) / 2 then d1 + N else d1

/-- The comparison `d > N / 2` on rationals coincides with `N < 2 * d` on
integers. -/
lemma half_lt_iff (N d : ℤ) : (N : ℚ) / 2 < (d : ℚ) ↔ N < 2 * d := by
  rw [div_lt_iff (by norm_num : (0 : ℚ) < 2),
    show (d : ℚ) * 2 = ((2 * d : ℤ) : ℚ) by push_cast; ring]
  exact Int.cast_lt

/-- The comparison `d < -N / 2` on rationals coincides with `2 * d < -N` on
integers. -/
lemma lt_neg_half_iff (N d : ℤ) : (d : ℚ) < -(N : ℚ) / 2 ↔ 2 * d < -N := by
  rw [lt_div_iff (by norm_num : (0 : ℚ) < 2),
    show (d : ℚ) * 2 = ((2 * d : ℤ) : ℚ) by push_cast; ring,
    show -(N : ℚ) = ((-N : ℤ) : ℚ) by push_cast; ring]
  exact Int.cast_lt

/-- Purely integer description of `getSlot`. -/
lemma getSlot_eq (i a N : ℤ) :
    getSlot i a N =
      (let d := i - a
       let d1 := if N < 2 * d then d - N else d
       if 2 * d1 < -N then d1 + N else d1) := by
  unfold getSlot
  simp only [half_lt_iff, lt_neg_half_iff]

/-- C1 (amended): for `N ≥ 1` and `i, a ∈ [0, N)` the slot lies in the
closed interval `[-⌊N/2⌋, ⌊N/2⌋]` (for even `N` the value `-N/2` is
attained, so the claimed half-open interval `(-⌈N/2⌉, ⌊N/2⌋]` is off by
that one point), and the active item itself sits in slot `0`. -/
theorem C1_slot_range (N i a : ℤ) (hN : 1 ≤ N) (hi0 : 0 ≤ i) (hiN : i < N)
    (ha0 : 0 ≤ a) (haN : a < N) :
    |getSlot i a N| ≤ N / 2 ∧ getSlot a a N = 0 := by
  constructor
  · rw [getSlot_eq]
    simp only []
    split_ifs <;> (rw [abs_le]; omega)
  · rw [getSlot_eq]
    simp only []
    split_ifs <;> omega

/-- Witness for C1 at `N = 4`, `i = 0`, `a = 2` (and the active item `a = 2`). -/
theorem C1_slot_range_witness :
    (1 : ℤ) ≤ 4 ∧ (|getSlot 0 2 4| ≤ 4 / 2 ∧ getSlot 2 2 4 = 0) :=
  ⟨by decide, C1_slot_range 4 0 2 (by decide) (by decide) (by decide) (by decide) (by decide)⟩

/-- Counterexample to C1 as stated: at `N = 2`, `i = 0`, `a = 1` the slot is
`-1`, which is not strictly greater than `-⌈N/2⌉ = -1`, so the slot is not
in the claimed interval `(-⌈N/2⌉, ⌊N/2⌋]`. -/
theorem C1_counterexample :
    getSlot 0 1 2 = -1 ∧ ¬ (-(⌈((2 : ℤ) : ℚ) / 2⌉) < getSlot 0 1 2) := by
  have hval : getSlot 0 1 2 = -1 := by rw [getSlot_eq]; decide
  refine ⟨hval, ?_⟩
  intro h
  rw [show ⌈((2 : ℤ) : ℚ) / 2⌉ = 1 by norm_num, hval] at h
  omega

/-- The slot of an item is congruent to `i - a` modulo `N`: the two `if`
branches of `getSlot` only ever add or subtract one multiple of `N`. -/
lemma getSlot_emod (i a N : ℤ) : getSlot i a N % N = (i - a) % N := by
  rw [getSlot_eq]
  simp only []
  split_ifs <;>
    simp [Int.sub_emod, Int.add_emod, Int.emod_emod_of_dvd, Int.emod_self]

/-- C9: for `N ≥ 1` and an active index `a ∈ [0, N)`, the map
`i ↦ getSlot i a N` is injective on `[0, N)`, and the slot is `0` exactly
for `i = a`: exactly one item occupies the active slot. -/
theorem C9_slot_injective (N a i j : ℤ) (hN : 1 ≤ N) (ha0 : 0 ≤ a)
    (haN : a < N) (hi0 : 0 ≤ i) (hiN : i < N) (hj0 : 0 ≤ j) (hjN : j < N) :
    (getSlot i a N = getSlot j a N → i = j) ∧
    (getSlot i a N = 0 ↔ i = a) := by
  constructor
  · intro hEq
    have hmod : (i - a) % N = (j - a) % N := by
      rw [← getSlot_emod i a N, ← getSlot_emod j a N, hEq]
    have hzero : ((i - a) - (j - a)) % N = 0 :=
      Int.emod_eq_emod_iff_emod_sub_eq_zero.mp hmod
    have hdvd : N ∣ (i - a) - (j - a) := Int.dvd_of_emod_eq_zero hzero
    have := Int.eq_zero_of_dvd_of_natAbs_lt_natAbs hdvd (by omega)
    omega
  · constructor
    · intro h0
      have hmod : (i - a) % N = 0 := by
        rw [← getSlot_emod i a N, h0, Int.zero_emod]
      have hdvd : N ∣ i - a := Int.dvd_of_emod_eq_zero hmod
      have := Int.eq_zero_of_dvd_of_natAbs_lt_natAbs hdvd (by omega)
      omega
    · intro h
      subst h
      rw [getSlot_eq]
      simp only []
      split_ifs <;> omega

/-- Witness for C9 at `N = 4`, `a = 1`, `i = 3`, `j = 3`. -/
theorem C9_slot_injective_witness :
    (getSlot 3 1 4 = getSlot 3 1 4 → (3 : ℤ) = 3) ∧
    (getSlot 3 1 4 = 0 ↔ (3 : ℤ) = 1) :=
  C9_slot_injective 4 1 3 3 (by decide) (by decide) (by decide) (by decide)
    (by decide) (by decide) (by decide)

/-- JavaScript `%` on integers: remainder truncated toward zero. -/
def jsRem (a b : ℤ) : ℤ := Int.tmod a b

/-- The source's wrap idiom `((x % N) + N) % N` (TattooCarousel.tsx
lines 650, 658, 726). -/
def wrapIndex (x N : ℤ) : ℤ := jsRem (jsRem x N + N) N

/-- The `next` callback: `setActiveIndex((p) => (p + 1) % N)` (line 877). -/
def nextIndex (N p : ℤ) : ℤ := jsRem (p + 1) N

/-- The `prev` callback: `setActiveIndex((p) => (p - 1 + N) % N)` (line 878). -/
def prevIndex (N p : ℤ) : ℤ := jsRem (p - 1 + N) N

/-- Negating the dividend negates the truncated remainder. -/
lemma neg_tmod_left (a b : ℤ) : Int.tmod (-a) b = -(Int.tmod a b) := by
  rw [Int.tmod_def, Int.tmod_def, Int.neg_tdiv]
  ring

/-- Truncated remainder by a positive modulus lies strictly between `-N`
and `N`. -/
lemma tmod_bounds (x : ℤ) {N : ℤ} (hN : 0 < N) :
    -N < Int.tmod x N ∧ Int.tmod x N < N := by
  rcases le_or_lt 0 x with hx | hx
  · have h0 : 0 ≤ Int.tmod x N := Int.tmod_nonneg N hx
    exact ⟨by omega, Int.tmod_lt_of_pos _ hN⟩
  · have h0 : 0 ≤ Int.tmod (-x) N := Int.tmod_nonneg N (by omega)
    have hlt : Int.tmod (-x) N < N := Int.tmod_lt_of_pos _ hN
    have heq : Int.tmod x N = -(Int.tmod (-x) N) := by
      rw [← neg_tmod_left, neg_neg]
    omega

/-- The wrap idiom always lands in `[0, N)`. -/
lemma wrapIndex_mem (x : ℤ) {N : ℤ} (hN : 0 < N) :
    0 ≤ wrapIndex x N ∧ wrapIndex x N < N := by
  unfold wrapIndex jsRem
  have h := tmod_bounds x hN
  exact ⟨Int.tmod_nonneg _ (by omega), Int.tmod_lt_of_pos _ hN⟩

/-- An index already in `[0, N)` is a fixed point of the wrap idiom. -/
lemma wrapIndex_of_mem {p N : ℤ} (h0 : 0 ≤ p) (hN : p < N) :
    wrapIndex p N = p := by
  unfold wrapIndex jsRem
  rw [Int.tmod_eq_of_lt h0 hN, Int.tmod_eq_emod (by omega) (by omega),
    show p + N = p + N * 1 by ring, Int.add_mul_emod_self_left,
    Int.emod_eq_of_lt h0 hN]

/-- One index-changing operation of the carousel controller: arrow/keyboard
`next`/`prev`, a pagination click (`setActiveIndex(i)`, line 1167), or a
momentum/drag snap (`((next % N) + N) % N`, lines 650/658/726). -/
inductive IndexOp where
  | nextArrow : IndexOp
  | prevArrow : IndexOp
  | pageSet : ℤ → IndexOp
  | momentumSnap : ℤ → IndexOp
deriving DecidableEq

/-- Apply one operation to the active index, exactly as the source mutates
the state. -/
def applyIndexOp (N : ℤ) (p : ℤ) : IndexOp → ℤ
  | IndexOp.nextArrow => nextIndex N p
  | IndexOp.prevArrow => prevIndex N p
  | IndexOp.pageSet i => i
  | IndexOp.momentumSnap s => wrapIndex (p + s) N

/-- A pagination click only ever carries the index of an existing dot
(`items.map` at line 1165 only renders dots for `i < N`). -/
def validIndexOp (N : ℤ) : IndexOp → Bool
  | IndexOp.pageSet i => decide (0 ≤ i) && decide (i < N)
  | _ => true

/-- C2: starting from any valid active index, any finite sequence of
index-changing operations (next, prev, pagination set, momentum snap)
leaves the active index in `[0, N)`. -/
theorem C2_index_wrap (N p0 : ℤ) (ops : List IndexOp) (hN : 1 ≤ N)
    (hp : 0 ≤ p0 ∧ p0 < N) (hops : ∀ op ∈ ops, validIndexOp N op = true) :
    0 ≤ ops.foldl (applyIndexOp N) p0 ∧ ops.foldl (applyIndexOp N) p0 < N := by
  induction ops generalizing p0 with
  | nil => simpa using hp
  | cons op rest ih =>
      have hop : validIndexOp N op = true := hops op (List.mem_cons_self _ _)
      have hrest : ∀ o ∈ rest, validIndexOp N o = true :=
        fun o ho => hops o (List.mem_cons_of_mem _ ho)
      have hstep : 0 ≤ applyIndexOp N p0 op ∧ applyIndexOp N p0 op < N := by
        cases op with
        | nextArrow =>
            simp only [applyIndexOp, nextIndex, jsRem]
            exact ⟨Int.tmod_nonneg _ (by omega), Int.tmod_lt_of_pos _ (by omega)⟩
        | prevArrow =>
            simp only [applyIndexOp, prevIndex, jsRem]
            exact ⟨Int.tmod_nonneg _ (by omega), Int.tmod_lt_of_pos _ (by omega)⟩
        | pageSet i =>
            simp only [validIndexOp, Bool.and_eq_true, decide_eq_true_eq] at hop
            simp only [applyIndexOp]
            omega
        | momentumSnap s =>
            simp only [applyIndexOp]
            exact wrapIndex_mem _ (by omega)
      simpa using ih (applyIndexOp N p0 op) hstep hrest

/-- Witness for C2: four items, starting index `0`, a next, a prev, a
pagination jump to `2` and a momentum snap by `-7` steps. -/
theorem C2_index_wrap_witness :
    0 ≤ [IndexOp.nextArrow, IndexOp.prevArrow, IndexOp.pageSet 2,
        IndexOp.momentumSnap (-7)].foldl (applyIndexOp 4) 0 ∧
    [IndexOp.nextArrow, IndexOp.prevArrow, IndexOp.pageSet 2,
        IndexOp.momentumSnap (-7)].foldl (applyIndexOp 4) 0 < 4 :=
  C2_index_wrap 4 0 _ (by decide) (by decide) (by decide)

/-- JavaScript `Math.round`: rounds to the nearest integer, half toward
positive infinity, i.e. `Math.round(x) = ⌊x + 1/2⌋`. -/
def jsRound (q : ℚ) : ℤ := ⌊q + 1 / 2⌋

/-- The `tick` loop of `startMomentum` (TattooCarousel.tsx lines 637-670),
with explicit fuel standing for the `requestAnimationFrame` scheduler.
Each step multiplies the velocity by the friction `0.93`, adds it to the
running offset, snaps by `Math.round(-offset / sideOffset)` steps once
`|offset| > sideOffset * 0.35`, and otherwise stops once `|vel| < 0.4`,
advancing one step if `|offset| > sideOffset * 0.25` at that point.
Returns `some (newActiveIndex, finalDragX)` at a stop, `none` if the fuel
runs out first. -/
def momentumRun (so : ℚ) (N : ℤ) : ℕ → ℚ → ℚ → ℤ → Option (ℤ × ℚ)
  | 0, _, _, _ => none
  | fuel + 1, vel, offset, idx =>
      let vel1 := vel * (93 / 100)
      let offset1 := offset + vel1
      if |offset1| > so * (35 / 100) then
        let steps := jsRound (-offset1 / so)
        some (if steps ≠ 0 then wrapIndex (idx + steps) N else idx, 0)
      else if |vel1| < 4 / 10 then
        some (if |offset1| > so * (25 / 100) then
                wrapIndex (idx + (if offset1 < 0 then 1 else -1)) N
              else idx, 0)
      else
        momentumRun so N fuel vel1 offset1 idx

/-- C3: one unfolding of the coasting loop. A step first multiplies the
velocity by `0.93` and adds it to the running offset; if the new offset
exceeds 35% of `sideOffset` in magnitude the loop stops, moving the index
by `round(-offset / sideOffset)` signed steps wrapped modulo `N`; otherwise,
if the new velocity is below `0.4` in magnitude the loop stops, advancing
one index in the offset's direction exactly when the offset exceeds 25% of
`sideOffset`; otherwise the loop continues. Both stops reset the offset
to `0`. -/
theorem C3_momentum_step (so : ℚ) (N idx : ℤ) (fuel : ℕ) (vel offset : ℚ)
    (hN : 1 ≤ N) (h0 : 0 ≤ idx) (hiN : idx < N) :
    (|offset + vel * (93 / 100)| > so * (35 / 100) →
        momentumRun so N (fuel + 1) vel offset idx =
          some (wrapIndex (idx + jsRound (-(offset + vel * (93 / 100)) / so)) N, 0)) ∧
    (¬ |offset + vel * (93 / 100)| > so * (35 / 100) →
      |vel * (93 / 100)| < 4 / 10 →
        momentumRun so N (fuel + 1) vel offset idx =
          some ((if |offset + vel * (93 / 100)| > so * (25 / 100) then
                   wrapIndex (idx + (if offset + vel * (93 / 100) < 0 then 1 else -1)) N
                 else idx), 0)) ∧
    (¬ |offset + vel * (93 / 100)| > so * (35 / 100) →
      ¬ |vel * (93 / 100)| < 4 / 10 →
        momentumRun so N (fuel + 1) vel offset idx =
          momentumRun so N fuel (vel * (93 / 100)) (offset + vel * (93 / 100)) idx) := by
  refine ⟨?_, ?_, ?_⟩
  · intro hbig
    simp only [momentumRun]
    rw [if_pos hbig]
    by_cases hs : jsRound (-(offset + vel * (93 / 100)) / so) = 0
    · rw [if_neg (by simpa using hs), hs, add_zero, wrapIndex_of_mem h0 hiN]
    · rw [if_pos hs]
  · intro hbig hslow
    simp only [momentumRun]
    rw [if_neg hbig, if_pos hslow]
  · intro hbig hslow
    simp only [momentumRun]
    rw [if_neg hbig, if_neg hslow]

/-- Witness for C3 at `sideOffset = 220`, `N = 4`, `idx = 0`, `fuel = 0`,
`vel = 10`, `offset = 0`. -/
theorem C3_momentum_step_witness :
    (1 : ℤ) ≤ 4 ∧ (0 : ℤ) ≤ 0 ∧ (0 : ℤ) < 4 ∧
    ((|(0 : ℚ) + 10 * (93 / 100)| > 220 * (35 / 100) →
        momentumRun 220 4 (0 + 1) 10 0 0 =
          some (wrapIndex (0 + jsRound (-((0 : ℚ) + 10 * (93 / 100)) / 220)) 4, 0)) ∧
    (¬ |(0 : ℚ) + 10 * (93 / 100)| > 220 * (35 / 100) →
      |(10 : ℚ) * (93 / 100)| < 4 / 10 →
        momentumRun 220 4 (0 + 1) 10 0 0 =
          some ((if |(0 : ℚ) + 10 * (93 / 100)| > 220 * (25 / 100) then
                   wrapIndex (0 + (if (0 : ℚ) + 10 * (93 / 100) < 0 then 1 else -1)) 4
                 else 0), 0)) ∧
    (¬ |(0 : ℚ) + 10 * (93 / 100)| > 220 * (35 / 100) →
      ¬ |(10 : ℚ) * (93 / 100)| < 4 / 10 →
        momentumRun 220 4 (0 + 1) 10 0 0 =
          momentumRun 220 4 0 (10 * (93 / 100)) (0 + 10 * (93 / 100)) 0)) :=
  ⟨by norm_num, by norm_num, by norm_num,
    C3_momentum_step 220 4 0 0 10 0 (by norm_num) (by norm_num) (by norm_num)⟩

/-- Velocity after `k` coasting frames: the source's
`vel *= friction` recurrence with friction `0.93`. -/
def decayVel (v : ℚ) (k : ℕ) : ℚ := v * (93 / 100) ^ k

/-- The magnitude of a decayed velocity factors through the magnitude of
the initial velocity. -/
lemma abs_decayVel (v : ℚ) (k : ℕ) : |decayVel v k| = |v| * (93 / 100) ^ k := by
  rw [decayVel, abs_mul, abs_pow, abs_of_pos (by norm_num : (0 : ℚ) < 93 / 100)]

/-- One-step unfolding of the coasting loop. -/
lemma momentumRun_succ (so : ℚ) (N : ℤ) (fuel : ℕ) (vel offset : ℚ) (idx : ℤ) :
    momentumRun so N (fuel + 1) vel offset idx =
      (let vel1 := vel * (93 / 100)
       let offset1 := offset + vel1
       if |offset1| > so * (35 / 100) then
         let steps := jsRound (-offset1 / so)
         some (if steps ≠ 0 then wrapIndex (idx + steps) N else idx, 0)
       else if |vel1| < 4 / 10 then
         some (if |offset1| > so * (25 / 100) then
                 wrapIndex (idx + (if offset1 < 0 then 1 else -1)) N
               else idx, 0)
       else
         momentumRun so N fuel vel1 offset1 idx) := rfl

/-- Once the decayed velocity has fallen below the `0.4` stop threshold,
the coasting loop stops within that much fuel. -/
lemma momentumRun_isSome (so : ℚ) (N idx : ℤ) :
    ∀ (fuel : ℕ) (vel offset : ℚ), |vel * (93 / 100) ^ (fuel + 1)| < 4 / 10 →
      (momentumRun so N (fuel + 1) vel offset idx).isSome = true := by
  intro fuel
  induction fuel with
  | zero =>
      intro vel offset h
      rw [pow_one] at h
      rw [momentumRun_succ]
      simp only []
      split_ifs
      all_goals rfl
  | succ n ih =>
      intro vel offset h
      rw [momentumRun_succ]
      simp only []
      split_ifs
      all_goals try rfl
      apply ih
      rw [show vel * (93 / 100) * (93 / 100) ^ (n + 1)
            = vel * (93 / 100) ^ (n + 1 + 1) by ring]
      exact h

/-- C8: the coasting velocity recurrence `v * 0.93 ^ k` decays strictly in
magnitude, never changes sign, eventually falls below the `0.4` stop
threshold, and consequently the momentum loop terminates on some finite
fuel from any start. -/
theorem C8_decay (v offset : ℚ) (idx N : ℤ) (so : ℚ) (k : ℕ) (hv : |v| > 2) :
    |decayVel v (k + 1)| < |decayVel v k| ∧
    (0 < v → 0 < decayVel v k) ∧ (v < 0 → decayVel v k < 0) ∧
    (∃ m, |decayVel v m| < 4 / 10) ∧
    (∃ fuel, (momentumRun so N fuel v offset idx).isSome = true) := by
  have hv0 : (0 : ℚ) < |v| := by linarith
  have hr0 : (0 : ℚ) < 93 / 100 := by norm_num
  have hexists : ∃ m, |decayVel v m| < 4 / 10 := by
    obtain ⟨m, hm⟩ := exists_pow_lt_of_lt_one
      (div_pos (by norm_num : (0 : ℚ) < 4 / 10) hv0)
      (by norm_num : (93 : ℚ) / 100 < 1)
    refine ⟨m, ?_⟩
    rw [abs_decayVel]
    calc |v| * (93 / 100) ^ m < |v| * (4 / 10 / |v|) :=
          mul_lt_mul_of_pos_left hm hv0
      _ = 4 / 10 := by field_simp; ring
  refine ⟨?_, ?_, ?_, hexists, ?_⟩
  · rw [abs_decayVel, abs_decayVel]
    refine mul_lt_mul_of_pos_left ?_ hv0
    apply pow_lt_pow_right_of_lt_one₀ hr0 (by norm_num)
    omega
  · intro hpos
    exact mul_pos hpos (pow_pos hr0 k)
  · intro hneg
    exact mul_neg_of_neg_of_pos hneg (pow_pos hr0 k)
  · obtain ⟨m, hm⟩ := hexists
    refine ⟨m + 1, momentumRun_isSome so N idx m v offset ?_⟩
    rw [abs_decayVel] at hm
    have habs : |v * (93 / 100) ^ (m + 1)| = |v| * (93 / 100) ^ (m + 1) := by
      rw [abs_mul, abs_pow, abs_of_pos hr0]
    rw [habs]
    have hle : |v| * (93 / 100) ^ (m + 1) ≤ |v| * (93 / 100) ^ m := by
      rw [pow_succ]
      nlinarith [abs_nonneg v, pow_pos hr0 m]
    linarith

/-- Witness for C8 at `v = 3`, `offset = 0`, `idx = 0`, `N = 4`,
`sideOffset = 220`, `k = 2`. -/
theorem C8_decay_witness :
    |(3 : ℚ)| > 2 ∧
    (|decayVel 3 (2 + 1)| < |decayVel 3 2| ∧
     (0 < (3 : ℚ) → 0 < decayVel 3 2) ∧ ((3 : ℚ) < 0 → decayVel 3 2 < 0) ∧
     (∃ m, |decayVel 3 m| < 4 / 10) ∧
     (∃ fuel, (momentumRun 220 4 fuel 3 0 0).isSome = true)) :=
  ⟨by norm_num, C8_decay 3 0 0 4 220 2 (by norm_num)⟩

/-- State of the `useDragCarousel` hook (TattooCarousel.tsx lines 614-746):
the `dragX` state, the `dragging`/`captured` flags, the `startX`/`lastX`/
`lastTime`/`velocity` refs, the owned active index, and `coast` modelling a
scheduled `startMomentum` run (`rafId`): `some (vel, offset)` when a coast
with that initial velocity and running offset is pending. -/
structure CState where
  activeIdx : ℤ
  dragX : ℚ
  dragging : Bool
  captured : Bool
  startX : ℚ
  lastX : ℚ
  lastTime : ℚ
  velocity : ℚ
  coast : Option (ℚ × ℚ)
deriving DecidableEq

/-- A pointer event on the carousel surface: primary-button pointer-down on
a non-interactive target, pointer-move, or pointer-up, with the horizontal
coordinate and (for down/move) the `performance.now()` timestamp. -/
inductive PEvent where
  | down : ℚ → ℚ → PEvent
  | move : ℚ → ℚ → PEvent
  | up : ℚ → PEvent
deriving DecidableEq

/-- One step of the pointer handlers `handlePointerDown` (lines 672-684),
`handlePointerMove` (686-706) and `handlePointerUp` (708-732). Pointer-down
cancels any pending coast and arms the drag; a move inside the 5px deadzone
is ignored; a move beyond it captures the pointer, re-estimates the
velocity as `(dx / dt) * 16` when `dt > 0`, and follows the finger; a
release without capture only clears the offset; a captured release either
schedules a coast (`|velocity| > 2`, with the current `dragX` as initial
offset) or snaps by one index when the total displacement exceeds 25% of
`sideOffset`. -/
def pointerStep (so : ℚ) (N : ℤ) (s : CState) : PEvent → CState
  | PEvent.down x t =>
      { s with coast := none, dragging := true, captured := false,
               startX := x, lastX := x, lastTime := t, velocity := 0 }
  | PEvent.move x t =>
      if s.dragging = false then s else
      let totalDX := x - s.startX
      let captured1 := s.captured || decide (|totalDX| > 5)
      if captured1 = false then s else
      let dt := t - s.lastTime
      let vel1 := if dt > 0 then (x - s.lastX) / dt * 16 else s.velocity
      { s with captured := captured1, velocity := vel1,
               lastX := x, lastTime := t, dragX := totalDX }
  | PEvent.up x =>
      if s.dragging = false then s else
      if s.captured = false then { s with dragging := false, dragX := 0 } else
      let totalDX := x - s.startX
      if |s.velocity| > 2 then
        { s with dragging := false, coast := some (s.velocity, s.dragX) }
      else if |totalDX| > so * (25 / 100) then
        { s with dragging := false,
                 activeIdx := wrapIndex (s.activeIdx + (if totalDX < 0 then 1 else -1)) N,
                 dragX := 0 }
      else
        { s with dragging := false, dragX := 0 }

/-- C4: releasing a captured drag with `|velocity| ≤ 2` starts no coast,
resets the drag offset to `0`, and changes the active index by exactly one
wrapped step in the displacement's direction precisely when the total
displacement exceeds 25% of `sideOffset`. -/
theorem C4_slow_release (so : ℚ) (N : ℤ) (s : CState) (x : ℚ)
    (hdrag : s.dragging = true) (hcap : s.captured = true)
    (hvel : |s.velocity| ≤ 2) (hcoast : s.coast = none) :
    (pointerStep so N s (PEvent.up x)).coast = none ∧
    (pointerStep so N s (PEvent.up x)).dragX = 0 ∧
    (pointerStep so N s (PEvent.up x)).activeIdx =
      (if |x - s.startX| > so * (25 / 100)
       then wrapIndex (s.activeIdx + (if x - s.startX < 0 then 1 else -1)) N
       else s.activeIdx) := by
  have h1 : ¬ (s.dragging = false) := by rw [hdrag]; simp
  have h2 : ¬ (s.captured = false) := by rw [hcap]; simp
  have h3 : ¬ (|s.velocity| > 2) := not_lt.mpr hvel
  simp only [pointerStep, if_neg h1, if_neg h2, if_neg h3]
  split_ifs with h25
  all_goals simp only []
  all_goals exact ⟨hcoast, trivial, trivial⟩

/-- Witness for C4: `sideOffset = 220`, a captured drag from `startX = 0`
with `velocity = 1` and current offset `30`, released at `x = 66`
(displacement 66, which exceeds `220 * 0.25 = 55`). -/
theorem C4_slow_release_witness :
    |(CState.mk 0 30 true true 0 30 16 1 none).velocity| ≤ 2 ∧
    ((pointerStep 220 4 (CState.mk 0 30 true true 0 30 16 1 none) (PEvent.up 66)).coast = none ∧
     (pointerStep 220 4 (CState.mk 0 30 true true 0 30 16 1 none) (PEvent.up 66)).dragX = 0 ∧
     (pointerStep 220 4 (CState.mk 0 30 true true 0 30 16 1 none) (PEvent.up 66)).activeIdx =
       (if |(66 : ℚ) - 0| > 220 * (25 / 100)
        then wrapIndex (0 + (if (66 : ℚ) - 0 < 0 then 1 else -1)) 4
        else 0)) :=
  ⟨by norm_num, C4_slow_release 220 4 (CState.mk 0 30 true true 0 30 16 1 none) 66
    rfl rfl (by norm_num) rfl⟩

/-- C5 (amended): a pointer-down, any sequence of pointer-moves that all
stay within the 5px deadzone (so the gesture is never captured), and a
pointer-up leave the active index unchanged, the drag offset at `0`, and
no coast pending. As stated — with only the displacement at release
bounded — the claim fails, because a gesture may leave the deadzone and
return: see the counterexample. -/
theorem C5_deadzone (so : ℚ) (N : ℤ) (s0 : CState) (x t y : ℚ)
    (moves : List (ℚ × ℚ))
    (hmoves : ∀ m ∈ moves, |m.1 - x| ≤ 5) :
    (((PEvent.down x t :: moves.map (fun m => PEvent.move m.1 m.2)) ++
        [PEvent.up y]).foldl (pointerStep so N) s0).activeIdx = s0.activeIdx ∧
    (((PEvent.down x t :: moves.map (fun m => PEvent.move m.1 m.2)) ++
        [PEvent.up y]).foldl (pointerStep so N) s0).dragX = 0 ∧
    (((PEvent.down x t :: moves.map (fun m => PEvent.move m.1 m.2)) ++
        [PEvent.up y]).foldl (pointerStep so N) s0).coast = none := by
  have hinv : ∀ (ms : List (ℚ × ℚ)) (s : CState), s.dragging = true →
      s.captured = false → s.startX = x → (∀ m ∈ ms, |m.1 - x| ≤ 5) →
      (ms.map (fun m => PEvent.move m.1 m.2)).foldl (pointerStep so N) s = s := by
    intro ms
    induction ms with
    | nil => intro s _ _ _ _; rfl
    | cons m rest ih =>
        intro s hd hc hsx hall
        have hm5 : |m.1 - x| ≤ 5 := hall m (List.mem_cons_self _ _)
        have hstep : pointerStep so N s (PEvent.move m.1 m.2) = s := by
          simp only [pointerStep, hd, hc, hsx]
          rw [if_neg (by simp), if_pos (by simp [not_lt.mpr hm5])]
        rw [List.map_cons, List.foldl_cons, hstep]
        exact ih s hd hc hsx (fun q hq => hall q (List.mem_cons_of_mem _ hq))
  simp only [List.foldl_append, List.foldl_cons, List.foldl_nil]
  rw [hinv moves (pointerStep so N s0 (PEvent.down x t)) rfl rfl rfl hmoves]
  have hup : pointerStep so N (pointerStep so N s0 (PEvent.down x t))
      (PEvent.up y) =
      { s0 with coast := none, dragging := false, captured := false,
                startX := x, lastX := x, lastTime := t, velocity := 0,
                dragX := 0 } := by
    simp [pointerStep]
  rw [hup]
  exact ⟨rfl, rfl, rfl⟩

/-- Witness for C5 (amended) at `sideOffset = 220`, `N = 4`, a down at
`x = 0`, one move to `4` (inside the deadzone) and an up at `2`. -/
theorem C5_deadzone_witness :
    (∀ m ∈ [((4 : ℚ), (8 : ℚ))], |m.1 - 0| ≤ 5) ∧
    ((((PEvent.down 0 0 :: [((4 : ℚ), (8 : ℚ))].map (fun m => PEvent.move m.1 m.2)) ++
        [PEvent.up 2]).foldl (pointerStep 220 4)
          (CState.mk 0 0 false false 0 0 0 0 none)).activeIdx =
        (CState.mk 0 0 false false 0 0 0 0 none).activeIdx ∧
    (((PEvent.down 0 0 :: [((4 : ℚ), (8 : ℚ))].map (fun m => PEvent.move m.1 m.2)) ++
        [PEvent.up 2]).foldl (pointerStep 220 4)
          (CState.mk 0 0 false false 0 0 0 0 none)).dragX = 0 ∧
    (((PEvent.down 0 0 :: [((4 : ℚ), (8 : ℚ))].map (fun m => PEvent.move m.1 m.2)) ++
        [PEvent.up 2]).foldl (pointerStep 220 4)
          (CState.mk 0 0 false false 0 0 0 0 none)).coast = none) :=
  ⟨by
    intro m hm
    rw [List.mem_singleton] at hm
    subst hm
    norm_num,
   C5_deadzone 220 4 (CState.mk 0 0 false false 0 0 0 0 none) 0 0 2
    [((4 : ℚ), (8 : ℚ))]
    (by
      intro m hm
      rw [List.mem_singleton] at hm
      subst hm
      norm_num)⟩

/-- The state after a gesture that leaves the deadzone and returns: down at
`0`, a fast move out to `100`, a fast move back to `3`, and release at `3`
(total displacement 3 ≤ 5 at release). Layout `sideOffset = 220` (mobile),
`N = 4` items. -/
def cexFinalState : CState :=
  [PEvent.down 0 0, PEvent.move 100 8, PEvent.move 3 16,
    PEvent.up 3].foldl (pointerStep 220 4) (CState.mk 0 0 false false 0 0 0 0 none)

/-- Counterexample to C5 as stated: the gesture's total displacement at
release is `3 ≤ 5` pixels, yet the drag offset afterwards is not `0` (a
coast with velocity `-194` and offset `3` is pending), and that coast
resolves on its very first frame to active index `1 ≠ 0`. -/
theorem C5_counterexample :
    |(3 : ℚ) - 0| ≤ 5 ∧
    ¬ (cexFinalState.dragX = 0) ∧
    cexFinalState.coast = some (-194, 3) ∧
    momentumRun 220 4 (0 + 1) (-194) 3 0 = some (1, 0) ∧ (1 : ℤ) ≠ 0 := by
  have h1 : pointerStep 220 4 (CState.mk 0 0 false false 0 0 0 0 none)
      (PEvent.down 0 0) = CState.mk 0 0 true false 0 0 0 0 none := rfl
  have h2 : pointerStep 220 4 (CState.mk 0 0 true false 0 0 0 0 none)
      (PEvent.move 100 8) = CState.mk 0 100 true true 0 100 8 200 none := by
    simp only [pointerStep]
    rw [if_neg (by simp),
      if_neg (by simp only [Bool.false_or, decide_eq_false_iff_not]; norm_num)]
    norm_num
  have h3 : pointerStep 220 4 (CState.mk 0 100 true true 0 100 8 200 none)
      (PEvent.move 3 16) = CState.mk 0 3 true true 0 3 16 (-194) none := by
    simp only [pointerStep]
    rw [if_neg (by simp), if_neg (by simp)]
    norm_num
  have h4 : pointerStep 220 4 (CState.mk 0 3 true true 0 3 16 (-194) none)
      (PEvent.up 3) = CState.mk 0 3 false true 0 3 16 (-194) (some (-194, 3)) := by
    simp only [pointerStep]
    rw [if_neg (by simp), if_neg (by simp), if_pos (by norm_num)]
  have hfin : cexFinalState = CState.mk 0 3 false true 0 3 16 (-194) (some (-194, 3)) := by
    rw [cexFinalState, List.foldl_cons, h1, List.foldl_cons, h2,
      List.foldl_cons, h3, List.foldl_cons, h4, List.foldl_nil]
  have hsteps : jsRound (-((3 : ℚ) + (-194) * (93 / 100)) / 220) = 1 := by
    rw [jsRound, Int.floor_eq_iff]
    norm_num
  have hmr : momentumRun 220 4 (0 + 1) (-194) 3 0 = some (1, 0) := by
    rw [momentumRun_succ]
    simp only []
    rw [if_pos (by norm_num [abs_of_nonpos, abs_of_nonneg]), hsteps,
      if_pos (by norm_num)]
    rw [show wrapIndex (0 + 1) 4 = 1 by decide]
  refine ⟨by norm_num, ?_, ?_, hmr, by norm_num⟩
  · rw [hfin]
    norm_num
  · rw [hfin]

/-- C10: releasing a captured drag with `|velocity| > 2` schedules a coast
whose running offset starts at the current `dragX` (not at zero); when
`|dragX + velocity * 0.93|` already exceeds 35% of `sideOffset`, the coast
stops on its very first frame. -/
theorem C10_coast_init (so : ℚ) (N idx : ℤ) (s : CState) (x : ℚ)
    (hdrag : s.dragging = true) (hcap : s.captured = true)
    (hvel : |s.velocity| > 2)
    (hbig : |s.dragX + s.velocity * (93 / 100)| > so * (35 / 100)) :
    (pointerStep so N s (PEvent.up x)).coast = some (s.velocity, s.dragX) ∧
    (momentumRun so N (0 + 1) s.velocity s.dragX idx).isSome = true := by
  constructor
  · simp only [pointerStep]
    rw [if_neg (by rw [hdrag]; simp), if_neg (by rw [hcap]; simp), if_pos hvel]
  · rw [momentumRun_succ]
    simp only []
    rw [if_pos hbig]
    rfl

/-- Witness for C10: a captured drag with velocity `100` and offset `80`
released at `x = 80`, with `sideOffset = 220`:
`|80 + 100 * 0.93| = 173 > 77`. -/
theorem C10_coast_init_witness :
    |(CState.mk 0 80 true true 0 80 16 100 none).velocity| > 2 ∧
    ((pointerStep 220 4 (CState.mk 0 80 true true 0 80 16 100 none)
        (PEvent.up 80)).coast = some (100, 80) ∧
     (momentumRun 220 4 (0 + 1) 100 80 0).isSome = true) :=
  ⟨by norm_num,
   C10_coast_init 220 4 0 (CState.mk 0 80 true true 0 80 16 100 none) 80
    rfl rfl (by norm_num) (by norm_num)⟩

/-- The two theme modes handled by `next-themes` in this component. -/
inductive ThemeMode where
  | light : ThemeMode
  | dark : ThemeMode
deriving DecidableEq

/-- Observable state of one `ThemeTransitionOverlay` instance
(TattooCarousel.tsx lines 779-794): the `hasFlipped` ref, how many times
`setTheme` has been invoked, the persisted mode, and whether `onComplete`
has fired. -/
structure OverlayState where
  hasFlipped : Bool
  flipCount : ℕ
  mode : ThemeMode
  completed : Bool
deriving DecidableEq

/-- The 350ms timer callback (lines 789-791):
`if (!hasFlipped.current) { hasFlipped.current = true; setTheme(targetTheme); }`. -/
def flipTimerFire (target : ThemeMode) (s : OverlayState) : OverlayState :=
  if s.hasFlipped then s
  else { s with hasFlipped := true, flipCount := s.flipCount + 1, mode := target }

/-- Whether a `setTimeout` with the given delay fires before the effect
cleanup runs: it fires unless the overlay is torn down (`clearTimeout`,
line 793) strictly before the delay elapses. `none` means the overlay is
never torn down early. -/
def timerFires (delay : ℚ) : Option ℚ → Bool
  | none => true
  | some tear => decide (delay ≤ tear)

/-- One run of the overlay effect (lines 788-794): the flip timer at 350ms
and the completion timer at 1600ms, both cancelled if the overlay is torn
down before they fire. -/
def runOverlay (target : ThemeMode) (tear : Option ℚ) (s0 : OverlayState) :
    OverlayState :=
  let s1 := if timerFires 350 tear then flipTimerFire target s0 else s0
  if timerFires 1600 tear then { s1 with completed := true } else s1

/-- C6: for an overlay instance that has not yet flipped, surviving to
350ms flips the persisted mode to the target exactly once; the flip
callback is idempotent, so a second flip attempt within the same instance
does nothing; tearing the overlay down before 350ms never flips the mode;
and completion is signalled exactly when the instance survives to 1600ms. -/
theorem C6_theme_flip (target : ThemeMode) (s0 s : OverlayState)
    (tear : Option ℚ) (T : ℚ)
    (h0 : s0.hasFlipped = false) (h0c : s0.completed = false) (hT : T < 350) :
    (timerFires 350 tear = true →
        (runOverlay target tear s0).flipCount = s0.flipCount + 1 ∧
        (runOverlay target tear s0).mode = target) ∧
    flipTimerFire target (flipTimerFire target s) = flipTimerFire target s ∧
    ((runOverlay target (some T) s0).flipCount = s0.flipCount ∧
        (runOverlay target (some T) s0).mode = s0.mode) ∧
    ((runOverlay target tear s0).completed = timerFires 1600 tear) := by
  have hflip : flipTimerFire target s0 =
      { s0 with hasFlipped := true, flipCount := s0.flipCount + 1,
                mode := target } := by
    rw [flipTimerFire, if_neg (by rw [h0]; simp)]
  have hnofire : timerFires 350 (some T) = false := by
    rw [timerFires]
    simp only [decide_eq_false_iff_not]
    linarith
  have hnofire16 : timerFires 1600 (some T) = false := by
    rw [timerFires]
    simp only [decide_eq_false_iff_not]
    linarith
  refine ⟨?_, ?_, ?_, ?_⟩
  · intro hfires
    by_cases h16 : timerFires 1600 tear = true <;>
      simp [runOverlay, hfires, h16, hflip]
  · by_cases h : s.hasFlipped = true
    · have hs : flipTimerFire target s = s := by rw [flipTimerFire, if_pos h]
      rw [hs]
      exact hs
    · have hs : flipTimerFire target s =
          { s with hasFlipped := true, flipCount := s.flipCount + 1,
                   mode := target } := by
        rw [flipTimerFire, if_neg h]
      rw [hs, flipTimerFire, if_pos rfl]
  · simp [runOverlay, hnofire, hnofire16]
  · by_cases h16 : timerFires 1600 tear = true <;>
      by_cases h35 : timerFires 350 tear = true <;>
      simp [runOverlay, h16, h35, hflip, h0c]

/-- Witness for C6: target `dark`, fresh instance in `light` mode, teardown
at 400ms (after the flip timer), and the early-teardown time `T = 100`. -/
theorem C6_theme_flip_witness :
    (OverlayState.mk false 0 ThemeMode.light false).hasFlipped = false ∧
    ((timerFires 350 (some 400) = true →
        (runOverlay ThemeMode.dark (some 400)
          (OverlayState.mk false 0 ThemeMode.light false)).flipCount =
          (OverlayState.mk false 0 ThemeMode.light false).flipCount + 1 ∧
        (runOverlay ThemeMode.dark (some 400)
          (OverlayState.mk false 0 ThemeMode.light false)).mode = ThemeMode.dark) ∧
    flipTimerFire ThemeMode.dark (flipTimerFire ThemeMode.dark
        (OverlayState.mk false 0 ThemeMode.light false)) =
      flipTimerFire ThemeMode.dark (OverlayState.mk false 0 ThemeMode.light false) ∧
    ((runOverlay ThemeMode.dark (some 100)
        (OverlayState.mk false 0 ThemeMode.light false)).flipCount =
        (OverlayState.mk false 0 ThemeMode.light false).flipCount ∧
      (runOverlay ThemeMode.dark (some 100)
        (OverlayState.mk false 0 ThemeMode.light false)).mode =
        (OverlayState.mk false 0 ThemeMode.light false).mode) ∧
    ((runOverlay ThemeMode.dark (some 400)
        (OverlayState.mk false 0 ThemeMode.light false)).completed =
      timerFires 1600 (some 400))) :=
  ⟨rfl, C6_theme_flip ThemeMode.dark (OverlayState.mk false 0 ThemeMode.light false)
    (OverlayState.mk false 0 ThemeMode.light false) (some 400) 100
    rfl rfl (by norm_num)⟩

/-- A carousel item as supplied by the configuration collaborator
(`config.cards`). -/
structure CarouselItem where
  id : ℕ
  title : String
  description : String
  cta : String
  videoId : String
  bg : String
deriving DecidableEq

/-- The item-count fallback at line 842:
`const N = items.length > 0 ? items.length : 1;`. -/
def effectiveCount (items : List CarouselItem) : ℤ :=
  if items.length > 0 then (items.length : ℤ) else 1

/-- The background layer's item access at line 1227,
`items[activeIndex].bg`, embedded as a fallible lookup: `none` means the
JavaScript access reads `undefined` and the `.bg` dereference throws. -/
def backgroundSrc (items : List CarouselItem) (activeIdx : ℕ) : Option String :=
  (items.get? activeIdx).map CarouselItem.bg

/-- C7 (code bug): with an empty item list the component does substitute an
item count of `1`, but the background layer still evaluates
`items[activeIndex].bg` with `activeIndex = 0` on the empty array, an
out-of-range access (`undefined.bg` throws a TypeError during render), so
the render path is not access-safe as the claim states. -/
theorem C7_empty_items_bug :
    effectiveCount [] = 1 ∧ backgroundSrc [] 0 = none :=
  ⟨rfl, rfl⟩
